import Mathlib

/-!
Verification of the filtering/aggregation pipeline of
`src/dashboard_consolidado.py` (a pandas/Streamlit dashboard).

The pandas `DataFrame` loaded from the CSV is modelled as a `List Registro`,
one `Registro` per row, with the column names of the source
(`Data`, `Ano`, `Mes`, `Procedimento`, `Cliente`, `Quantidade`).
Dates are modelled as `Nat` encodings `y*10000 + m*100 + d`, whose numeric
order coincides with chronological order; integer columns are `Int`.
-/

/-- One row of the loaded table.  Column types follow the source:
`Data` is parsed to a date (`pd.to_datetime`, modelled as an order-preserving
`Nat` encoding), `Ano`/`Mes`/`Quantidade` are integers, `Procedimento` and
`Cliente` are strings (normalized by the loader). -/
structure Registro where
  data : Nat
  ano : Int
  mes : Int
  procedimento : String
  cliente : String
  quantidade : Int
  deriving Repr, DecidableEq

/-- Lines 78-83: the boolean-mask filter
`df[(df['Ano'].isin(anos)) & (df['Mes'].isin(meses)) &
    (df['Procedimento'].isin(procs)) & (df['Cliente'].isin(clientes))]`.
A pandas boolean mask keeps exactly the rows where the conjunction holds,
in source order. -/
def df_filtrado (df : List Registro) (anos meses : List Int)
    (procs clientes : List String) : List Registro :=
  df.filter fun r =>
    anos.contains r.ano && meses.contains r.mes &&
    procs.contains r.procedimento && clientes.contains r.cliente

/-- Lexicographic comparison of character lists by code point — the order
Python uses to compare strings (`sorted` on `str`, pandas string sorting). -/
def leChars : List Char → List Char → Bool
  | [], _ => true
  | _ :: _, [] => false
  | a :: s, b :: t => if a < b then true else if b < a then false else leChars s t

/-- Python's `≤` on strings: code-point lexicographic. -/
def strLe (s t : String) : Prop := leChars s.data t.data = true

instance : DecidableRel strLe := fun s t => by
  unfold strLe; infer_instance

/-- Line 46: `sorted(df['Ano'].unique(), reverse=True)` — the distinct years,
descending. `Series.unique` lists values in order of first appearance;
`sorted(..., reverse=True)` sorts descending. -/
def anos_disponiveis (df : List Registro) : List Int :=
  (((df.map Registro.ano).dedup).insertionSort (· ≤ ·)).reverse

/-- Line 54: `sorted(df['Mes'].unique())` — the distinct months, ascending. -/
def meses_disponiveis (df : List Registro) : List Int :=
  ((df.map Registro.mes).dedup).insertionSort (· ≤ ·)

/-- Line 62: `sorted(df['Procedimento'].unique())` — distinct procedures in
lexicographic order. -/
def procedimentos_disponiveis (df : List Registro) : List String :=
  ((df.map Registro.procedimento).dedup).insertionSort strLe

/-- Line 70: `sorted(df['Cliente'].unique())` — distinct clients in
lexicographic order. -/
def clientes_disponiveis (df : List Registro) : List String :=
  ((df.map Registro.cliente).dedup).insertionSort strLe

/-- Line 91: `total_quantidade = df_filtrado['Quantidade'].sum()`. -/
def total_quantidade (dfF : List Registro) : Int :=
  (dfF.map Registro.quantidade).sum

/-- Line 92: `num_registros = len(df_filtrado)`. -/
def num_registros (dfF : List Registro) : Nat :=
  dfF.length

/-- Lines 86-96: the summary block.  The KPIs (`total_quantidade`,
`num_registros`) are computed and shown only in the `else` branch, i.e. only
when `df_filtrado` is non-empty; when the filtered view is empty the page
shows `st.warning(...)` instead and no summary is produced (`none`). -/
def resumo (dfF : List Registro) : Option (Int × Nat) :=
  if dfF.isEmpty then none
  else some (total_quantidade dfF, num_registros dfF)

/-- Sum of the `Quantidade` column over a list of rows
(`['Quantidade'].sum()` applied to a group). -/
def somaQuantidade (l : List Registro) : Int :=
  (l.map Registro.quantidade).sum

/-- `df_filtrado.groupby(chave)['Quantidade'].sum().reset_index()`:
pandas `groupby` (default `sort=True`) produces one group per distinct key,
keys sorted ascending, each group carrying the sum of `Quantidade` over the
rows with that key. -/
def groupbySomaQuantidade {κ : Type} [DecidableEq κ] (le : κ → κ → Prop)
    [DecidableRel le] (chave : Registro → κ) (dfF : List Registro) :
    List (κ × Int) :=
  (((dfF.map chave).dedup).insertionSort le).map
    fun k => (k, somaQuantidade (dfF.filter fun r => chave r = k))

/-- Line 107: `df_filtrado.groupby('Data')['Quantidade'].sum().reset_index()`. -/
def df_evolucao (dfF : List Registro) : List (Nat × Int) :=
  groupbySomaQuantidade (· ≤ ·) Registro.data dfF

/-- Line 119:
`df_filtrado.groupby('Procedimento')['Quantidade'].sum().nlargest(10).reset_index()`.
`Series.nlargest(10)` (default `keep='first'`) is the 10 largest values in
descending order, ties resolved in favour of the earlier position in the
series — i.e. a stable descending sort followed by `take 10`.  The series it
acts on is the groupby result, whose index is the procedure names in
ascending order. -/
def df_top_proc (dfF : List Registro) : List (String × Int) :=
  ((groupbySomaQuantidade strLe Registro.procedimento dfF).insertionSort
    (fun a b => b.2 ≤ a.2)).take 10

/-- Line 121: `df_top_proc.sort_values('Quantidade')` — the bar chart is fed
the Top-10 groups re-sorted ascending by quantity. -/
def df_top_proc_plotado (dfF : List Registro) : List (String × Int) :=
  (df_top_proc dfF).insertionSort (fun a b => a.2 ≤ b.2)

/-- Line 133: `df_filtrado.groupby('Cliente')['Quantidade'].sum().reset_index()`. -/
def df_cliente (dfF : List Registro) : List (String × Int) :=
  groupbySomaQuantidade strLe Registro.cliente dfF

/-- Line 147: the detail table
`df_filtrado[['Ano', 'Mes', 'Cliente', 'Procedimento', 'Quantidade', 'Data']]`
— a column projection of the filtered rows, in their order. -/
def dados_detalhados (dfF : List Registro) :
    List (Int × Int × String × String × Int × Nat) :=
  dfF.map fun r => (r.ano, r.mes, r.cliente, r.procedimento, r.quantidade, r.data)

/-- The whitespace characters stripped by Python's `str.strip()`
(ASCII scope of the model). -/
def wsChar (c : Char) : Bool :=
  c = ' ' || c = '\t' || c = '\n' || c = '\r' || c = '\x0B' || c = '\x0C'

/-- Python's `str.upper()` on one character (ASCII scope of the model):
`'a'..'z'` map to `'A'..'Z'`, everything else is unchanged. -/
def upperChar (c : Char) : Char :=
  match c with
  | 'a' => 'A' | 'b' => 'B' | 'c' => 'C' | 'd' => 'D' | 'e' => 'E' | 'f' => 'F'
  | 'g' => 'G' | 'h' => 'H' | 'i' => 'I' | 'j' => 'J' | 'k' => 'K' | 'l' => 'L'
  | 'm' => 'M' | 'n' => 'N' | 'o' => 'O' | 'p' => 'P' | 'q' => 'Q' | 'r' => 'R'
  | 's' => 'S' | 't' => 'T' | 'u' => 'U' | 'v' => 'V' | 'w' => 'W' | 'x' => 'X'
  | 'y' => 'Y' | 'z' => 'Z'
  | other => other

/-- Python's `str.strip()`: drop leading and trailing whitespace. -/
def stripChars (l : List Char) : List Char :=
  ((l.dropWhile wsChar).reverse.dropWhile wsChar).reverse

/-- The loader's per-value normalization `.str.strip().str.upper()`
(lines 21-22): strip surrounding whitespace, then uppercase. -/
def normalizar (s : String) : String :=
  ⟨(stripChars s.data).map upperChar⟩

/-- One CSV cell as typed by `pd.read_csv`'s column inference: a column whose
values all parse as integers is numeric (`int`), otherwise its values stay
text (`str`).  (`read_csv` never mixes types inside one column.) -/
inductive Cell where
  | int (n : Int)
  | str (s : String)
  deriving Repr, DecidableEq

/-- `astype(str)` on one cell: numbers are rendered in decimal, strings kept. -/
def Cell.paraStr : Cell → String
  | .int n => toString n
  | .str s => s

/-- Whether the cell holds text (so that the pandas `.str` accessor works). -/
def Cell.ehStr : Cell → Bool
  | .int _ => false
  | .str _ => true

/-- The text of a textual cell.  Only evaluated under an `ehStr` guard in the
loader (mirroring that `.str` only runs on string-typed columns); the `.int`
branch is unreachable there. -/
def Cell.texto : Cell → String
  | .int _ => ""
  | .str s => s

/-- One data row of the CSV file as produced by `pd.read_csv(..., sep=';')`:
`Data` still a raw string (parsed later by `pd.to_datetime`), `Ano`, `Mes`,
`Quantidade` integer columns (§6 of the input contract), `Cliente` and
`Procedimento` cells that are numeric or textual according to column
inference. -/
structure LinhaCSV where
  data : String
  ano : Int
  mes : Int
  cliente : Cell
  procedimento : Cell
  quantidade : Int
  deriving Repr, DecidableEq

/-- What the loader can be handed: a path with no file behind it
(`FileNotFoundError`), a file whose content does not yield the expected
columns (wrong delimiter / missing column — any such error is caught by the
generic `except`), or a well-shaped semicolon-separated CSV. -/
inductive LoadInput where
  | arquivoInexistente
  | malformado
  | csv (linhas : List LinhaCSV)
  deriving Repr, DecidableEq

/-- All-digit character list to its decimal value. -/
def digitos? (l : List Char) : Option Nat :=
  if l ≠ [] ∧ l.all Char.isDigit then
    some (l.foldl (fun acc c => acc * 10 + (c.toNat - 48)) 0)
  else none

/-- Model of `pd.to_datetime` on one ISO `YYYY-MM-DD` string: the date
`y-m-d` is encoded as `y*10000 + m*100 + d` (numeric order = chronological
order); anything else fails. -/
def parseData (s : String) : Option Nat :=
  match s.data.splitOn '-' with
  | [y, m, d] =>
    match digitos? y, digitos? m, digitos? d with
    | some yn, some mn, some dn =>
      if 1 ≤ mn ∧ mn ≤ 12 ∧ 1 ≤ dn ∧ dn ≤ 31 then
        some (yn * 10000 + mn * 100 + dn)
      else none
    | _, _, _ => none
  | _ => none

/-- `pd.to_datetime` applied to the whole `Data` column: every entry must
parse, otherwise the conversion raises (caught by the generic `except`). -/
def parseTodas : List LinhaCSV → Option (List Nat)
  | [] => some []
  | r :: t =>
    match parseData r.data, parseTodas t with
    | some d, some ds => some (d :: ds)
    | _, _ => none

/-- Lines 13-29, `carregar_dados_consolidados`:
read the CSV (`FileNotFoundError` and malformed content land in the two
`except` branches: `st.error(...)` is shown and `None` is returned — here an
`Except.error` carrying the message), then `pd.to_datetime(df['Data'])`
(an unparseable date raises, caught by the generic `except`), then
`df['Procedimento'].astype(str).str.strip().str.upper()` (line 21, total),
then `df['Cliente'].str.strip().str.upper()` (line 22 — **without**
`astype(str)`: on a numeric `Cliente` column the `.str` accessor raises,
caught by the generic `except`). -/
def carregar_dados_consolidados : LoadInput → Except String (List Registro)
  | .arquivoInexistente =>
    .error "Arquivo de estatísticas não encontrado em: estatisticas_consolidadas_clinica.csv"
  | .malformado =>
    .error "Erro ao carregar o arquivo CSV: conteudo malformado"
  | .csv linhas =>
    match parseTodas linhas with
    | none => .error "Erro ao carregar o arquivo CSV: data invalida"
    | some datas =>
      if linhas.all (fun r => r.cliente.ehStr) then
        .ok (List.zipWith
          (fun r d =>
            { data := d, ano := r.ano, mes := r.mes,
              procedimento := normalizar r.procedimento.paraStr,
              cliente := normalizar r.cliente.texto,
              quantidade := r.quantidade })
          linhas datas)
      else
        .error "Erro ao carregar o arquivo CSV: acesso .str em coluna nao textual"

/-- Modelled from the spec (§4.1): the loader as the spec describes it —
"Normalizes `procedure` and `client` columns: convert to string, strip
leading/trailing whitespace, uppercase" — i.e. with `astype(str)` applied to
**both** columns before `.str.strip().str.upper()`.  Used only to compare the
spec's words with the source's behaviour on non-textual client columns. -/
def carregar_conforme_spec : LoadInput → Except String (List Registro)
  | .arquivoInexistente =>
    .error "Arquivo de estatísticas não encontrado em: estatisticas_consolidadas_clinica.csv"
  | .malformado =>
    .error "Erro ao carregar o arquivo CSV: conteudo malformado"
  | .csv linhas =>
    match parseTodas linhas with
    | none => .error "Erro ao carregar o arquivo CSV: data invalida"
    | some datas =>
      .ok (List.zipWith
        (fun r d =>
          { data := d, ano := r.ano, mes := r.mes,
            procedimento := normalizar r.procedimento.paraStr,
            cliente := normalizar r.cliente.paraStr,
            quantidade := r.quantidade })
        linhas datas)

/-- Everything the page renders below the filters when the filtered view is
non-empty (lines 88-147): the two KPIs, the three chart inputs and the
projected detail table. -/
structure Paineis where
  totalQuantidade : Int
  numRegistros : Nat
  evolucao : List (Nat × Int)
  topProc : List (String × Int)
  topProcPlotado : List (String × Int)
  distribuicaoClientes : List (String × Int)
  detalhes : List (Int × Int × String × String × Int × Nat)
  deriving Repr, DecidableEq

/-- Lines 86-147: with a loaded table and the four selections, either the
filtered view is empty — `st.warning(...)`, nothing else rendered (`none`) —
or all panels are computed from the filtered view. -/
def pagina (df : List Registro) (anos meses : List Int)
    (procs clientes : List String) : Option Paineis :=
  let dfF := df_filtrado df anos meses procs clientes
  if dfF.isEmpty then none
  else some
    { totalQuantidade := total_quantidade dfF
      numRegistros := num_registros dfF
      evolucao := df_evolucao dfF
      topProc := df_top_proc dfF
      topProcPlotado := df_top_proc_plotado dfF
      distribuicaoClientes := df_cliente dfF
      detalhes := dados_detalhados dfF }

/-- Lines 33-36 and onward: the whole script.  `df = carregar_dados_consolidados(...)`;
`if df is None: st.stop()` — when the load failed the error message shown by
the loader is the page's outcome and nothing further (filters, filtering,
aggregation, charts, table) runs; otherwise the page is built from the
loaded table and the four selections. -/
def dashboard (entrada : LoadInput) (anos meses : List Int)
    (procs clientes : List String) : Except String (Option Paineis) :=
  match carregar_dados_consolidados entrada with
  | .error e => .error e
  | .ok df => .ok (pagina df anos meses procs clientes)

theorem somaQuantidade_particao (p : Registro → Bool) (l : List Registro) :
    somaQuantidade (l.filter p) + somaQuantidade (l.filter fun r => !p r)
      = somaQuantidade l := by
  induction l with
  | nil => simp [somaQuantidade]
  | cons a t ih =>
    by_cases h : p a <;>
      simp [somaQuantidade, List.filter_cons, h] at ih ⊢ <;> omega

theorem groupby_soma_total {κ : Type} [DecidableEq κ] (chave : Registro → κ) :
    ∀ (ks : List κ) (l : List Registro), ks.Nodup → (∀ r ∈ l, chave r ∈ ks) →
      (ks.map fun k => somaQuantidade (l.filter fun r => chave r = k)).sum
        = somaQuantidade l := by
  intro ks
  induction ks with
  | nil =>
    intro l _ hall
    have : l = [] := List.eq_nil_iff_forall_not_mem.mpr fun r hr => by
      simpa using hall r hr
    simp [this, somaQuantidade]
  | cons k ks ih =>
    intro l hnd hall
    have hk : k ∉ ks := (List.nodup_cons.mp hnd).1
    have hrest : ∀ k' ∈ ks,
        (l.filter fun r => chave r = k')
          = ((l.filter fun r => !(chave r = k)).filter fun r => chave r = k') := by
      intro k' hk'
      rw [List.filter_filter]
      apply List.filter_congr
      intro r _
      by_cases h : chave r = k'
      · have hne : ¬ (k' = k) := fun hc => hk (hc ▸ hk')
        have hck : ¬ chave r = k := fun hc => hne (by rw [← h, hc])
        simp [h, hck, hne]
      · simp [h]
    have hall' : ∀ r ∈ (l.filter fun r => !(chave r = k)), chave r ∈ ks := by
      intro r hr
      have h1 := List.of_mem_filter hr
      have h2 := hall r (List.mem_of_mem_filter hr)
      simp at h1
      rcases List.mem_cons.mp h2 with h | h
      · exact absurd h h1
      · exact h
    calc (List.map (fun k => somaQuantidade (l.filter fun r => chave r = k)) (k :: ks)).sum
        = somaQuantidade (l.filter fun r => chave r = k)
          + (ks.map fun k' => somaQuantidade (l.filter fun r => chave r = k')).sum := by
          simp
      _ = somaQuantidade (l.filter fun r => chave r = k)
          + (ks.map fun k' => somaQuantidade
              ((l.filter fun r => !(chave r = k)).filter fun r => chave r = k')).sum := by
          congr 1
          exact congrArg List.sum
            (List.map_congr_left fun k' hk' =>
              congrArg somaQuantidade (hrest k' hk'))
      _ = somaQuantidade (l.filter fun r => chave r = k)
          + somaQuantidade (l.filter fun r => !(chave r = k)) := by
          rw [ih _ (List.nodup_cons.mp hnd).2 hall']
      _ = somaQuantidade l := somaQuantidade_particao _ l

instance : IsTotal (String × Int) (fun a b => b.2 ≤ a.2) :=
  ⟨fun a b => le_total b.2 a.2⟩

instance : IsTrans (String × Int) (fun a b => b.2 ≤ a.2) :=
  ⟨fun _ _ _ h1 h2 => le_trans h2 h1⟩

instance : IsTotal (String × Int) (fun a b => a.2 ≤ b.2) :=
  ⟨fun a b => le_total a.2 b.2⟩

instance : IsTrans (String × Int) (fun a b => a.2 ≤ b.2) :=
  ⟨fun _ _ _ h1 h2 => le_trans h1 h2⟩

theorem leChars_total : ∀ s t, leChars s t = true ∨ leChars t s = true
  | [], _ => Or.inl rfl
  | _ :: _, [] => Or.inr rfl
  | a :: s, b :: t => by
    unfold leChars
    rcases lt_trichotomy a b with h | h | h
    · left; simp [h]
    · subst h
      simpa [lt_irrefl] using leChars_total s t
    · right; simp [h, not_lt_of_gt h]

theorem leChars_trans : ∀ s t u, leChars s t = true → leChars t u = true →
    leChars s u = true
  | [], _, _, _, _ => rfl
  | _ :: _, [], _, h1, _ => by simp [leChars] at h1
  | _ :: _, _ :: _, [], _, h2 => by simp [leChars] at h2
  | a :: s, b :: t, c :: u, h1, h2 => by
    unfold leChars at h1 h2 ⊢
    rcases lt_trichotomy a b with hab | hab | hab
    · rcases lt_trichotomy b c with hbc | hbc | hbc
      · simp [lt_trans hab hbc]
      · subst hbc; simp [hab]
      · simp [hbc, not_lt_of_gt hbc] at h2
    · subst hab
      rcases lt_trichotomy a c with hac | hac | hac
      · simp [hac]
      · subst hac
        simp only [lt_irrefl, if_false] at h1 h2 ⊢
        exact leChars_trans s t u h1 h2
      · simp [hac, not_lt_of_gt hac] at h2
    · simp [hab, not_lt_of_gt hab] at h1

theorem leChars_antisymm : ∀ s t, leChars s t = true → leChars t s = true → s = t
  | [], [], _, _ => rfl
  | [], _ :: _, _, h2 => by simp [leChars] at h2
  | _ :: _, [], h1, _ => by simp [leChars] at h1
  | a :: s, b :: t, h1, h2 => by
    unfold leChars at h1 h2
    rcases lt_trichotomy a b with hab | hab | hab
    · simp [hab, not_lt_of_gt hab] at h2
    · subst hab
      simp only [lt_irrefl, if_false] at h1 h2
      rw [leChars_antisymm s t h1 h2]
    · simp [hab, not_lt_of_gt hab] at h1

instance : IsTotal String strLe :=
  ⟨fun s t => leChars_total s.data t.data⟩

instance : IsTrans String strLe :=
  ⟨fun s t u => leChars_trans s.data t.data u.data⟩

instance : IsAntisymm String strLe :=
  ⟨fun s t h1 h2 => String.ext (leChars_antisymm s.data t.data h1 h2)⟩

theorem par_sublist_de_pairwise {α : Type} {R : α → α → Prop} :
    ∀ {l : List α} {x y : α}, l.Pairwise R → x ∈ l → y ∈ l → x ≠ y →
      (R x y ∧ List.Sublist [x, y] l) ∨ (R y x ∧ List.Sublist [y, x] l) := by
  intro l
  induction l with
  | nil => simp
  | cons a t ih =>
    intro x y hp hx hy hxy
    rcases List.mem_cons.mp hx with rfl | hx'
    · rcases List.mem_cons.mp hy with rfl | hy'
      · exact absurd rfl hxy
      · exact Or.inl ⟨(List.pairwise_cons.mp hp).1 y hy',
          List.Sublist.cons₂ x (List.singleton_sublist.mpr hy')⟩
    · rcases List.mem_cons.mp hy with rfl | hy'
      · exact Or.inr ⟨(List.pairwise_cons.mp hp).1 x hx',
          List.Sublist.cons₂ y (List.singleton_sublist.mpr hx')⟩
      · rcases ih (List.pairwise_cons.mp hp).2 hx' hy' hxy with ⟨h1, h2⟩ | ⟨h1, h2⟩
        · exact Or.inl ⟨h1, h2.cons a⟩
        · exact Or.inr ⟨h1, h2.cons a⟩

theorem upperChar_fix (c : Char)
    (h : c.toNat < 97 ∨ 122 < c.toNat) : upperChar c = c := by
  unfold upperChar
  split <;> first | rfl | (revert h; decide)

theorem upperChar_out (c : Char) :
    (upperChar c).toNat < 97 ∨ 122 < (upperChar c).toNat ∨ upperChar c = c := by
  unfold upperChar
  split <;> first | (left; decide) | (right; right; rfl)

theorem upperChar_idem (c : Char) : upperChar (upperChar c) = upperChar c := by
  rcases upperChar_out c with h | h | h
  · exact upperChar_fix _ (Or.inl h)
  · exact upperChar_fix _ (Or.inr h)
  · rw [h, h]

theorem wsChar_upperChar (c : Char) : wsChar (upperChar c) = wsChar c := by
  unfold upperChar
  split <;> rfl

theorem dropWhile_dropWhile (p : Char → Bool) (l : List Char) :
    (l.dropWhile p).dropWhile p = l.dropWhile p := by
  induction l with
  | nil => rfl
  | cons a t ih =>
    by_cases h : p a
    · simp [List.dropWhile_cons, h, ih]
    · simp [List.dropWhile_cons, h]

theorem dropWhile_cons_self {p : Char → Bool} {a : Char} {t : List Char}
    (h : (a :: t).dropWhile p = a :: t) : p a = false := by
  by_cases hpa : p a
  · exfalso
    rw [List.dropWhile_cons_of_pos hpa] at h
    have hlen := congrArg List.length h
    have hle : (t.dropWhile p).length ≤ t.length :=
      (List.dropWhile_sublist p).length_le
    simp at hlen
    omega
  · simpa using hpa

theorem dropWhile_reverso_divide (p : Char → Bool) (l : List Char) :
    ∃ resto, l = (l.reverse.dropWhile p).reverse ++ resto := by
  refine ⟨(l.reverse.takeWhile p).reverse, ?_⟩
  have h := List.takeWhile_append_dropWhile (p := p) (l := l.reverse)
  conv_lhs => rw [← List.reverse_reverse l, ← h]
  rw [List.reverse_append]

theorem dropWhile_reverso_fixo (p : Char → Bool) (w : List Char)
    (hw : w.dropWhile p = w) :
    ((w.reverse.dropWhile p).reverse).dropWhile p
      = (w.reverse.dropWhile p).reverse := by
  obtain ⟨resto, hsplit⟩ := dropWhile_reverso_divide p w
  cases hyc : (w.reverse.dropWhile p).reverse with
  | nil => simp [hyc]
  | cons b t =>
    have hwform : w = b :: (t ++ resto) := by
      rw [hsplit, hyc]; simp
    have hw2 : (b :: (t ++ resto)).dropWhile p = b :: (t ++ resto) := by
      rw [← hwform]; exact hw
    have hpb : p b = false := dropWhile_cons_self hw2
    rw [List.dropWhile_cons_of_neg (by simp [hpb])]

theorem stripChars_idem (l : List Char) :
    stripChars (stripChars l) = stripChars l := by
  unfold stripChars
  rw [dropWhile_reverso_fixo wsChar _ (dropWhile_dropWhile wsChar l),
    List.reverse_reverse, dropWhile_dropWhile]

theorem wsChar_comp_upperChar : (fun c => wsChar (upperChar c)) = wsChar :=
  funext wsChar_upperChar

theorem stripChars_map_upperChar (l : List Char) :
    stripChars (l.map upperChar) = (stripChars l).map upperChar := by
  unfold stripChars
  rw [List.dropWhile_map, show (wsChar ∘ upperChar) = wsChar from funext wsChar_upperChar,
    ← List.map_reverse, List.dropWhile_map,
    show (wsChar ∘ upperChar) = wsChar from funext wsChar_upperChar, ← List.map_reverse]

theorem normalizar_idem (s : String) : normalizar (normalizar s) = normalizar s := by
  unfold normalizar
  apply String.ext
  show ((stripChars ((stripChars s.data).map upperChar)).map upperChar)
      = (stripChars s.data).map upperChar
  rw [stripChars_map_upperChar, stripChars_idem, List.map_map]
  exact List.map_congr_left fun c _ => upperChar_idem c

theorem parseTodas_comprimento :
    ∀ (linhas : List LinhaCSV) (datas : List Nat),
      parseTodas linhas = some datas → datas.length = linhas.length := by
  intro linhas
  induction linhas with
  | nil =>
    intro datas h
    simp [parseTodas] at h
    simp [← h]
  | cons r t ih =>
    intro datas h
    unfold parseTodas at h
    cases hp : parseData r.data with
    | none => rw [hp] at h; simp at h
    | some d =>
      rw [hp] at h
      cases ht : parseTodas t with
      | none => rw [ht] at h; simp at h
      | some ds =>
        rw [ht] at h
        simp at h
        rw [← h]
        simp [ih ds ht]

theorem zipWith_map_esquerda {α β γ δ : Type} (f : α → β → γ) (g : γ → δ)
    (h : α → δ) (hfg : ∀ a b, g (f a b) = h a) :
    ∀ (as : List α) (bs : List β), as.length = bs.length →
      (List.zipWith f as bs).map g = as.map h := by
  intro as
  induction as with
  | nil => intro bs _; rfl
  | cons a t ih =>
    intro bs hlen
    cases bs with
    | nil => simp at hlen
    | cons b bt =>
      simp only [List.zipWith_cons_cons, List.map_cons, hfg]
      rw [ih bt (by simpa using hlen)]

theorem mem_zipWith_existe {α β γ : Type} (f : α → β → γ) :
    ∀ (as : List α) (bs : List β) (x : γ), x ∈ List.zipWith f as bs →
      ∃ a ∈ as, ∃ b ∈ bs, x = f a b := by
  intro as
  induction as with
  | nil => intro bs x h; simp at h
  | cons a t ih =>
    intro bs x h
    cases bs with
    | nil => simp at h
    | cons b bt =>
      rw [List.zipWith_cons_cons] at h
      rcases List.mem_cons.mp h with rfl | h'
      · exact ⟨a, List.mem_cons_self a t, b, List.mem_cons_self b bt, rfl⟩
      · obtain ⟨a', ha', b', hb', rfl⟩ := ih bt x h'
        exact ⟨a', List.mem_cons_of_mem a ha', b', List.mem_cons_of_mem b hb', rfl⟩

/-- C1: a record of the loaded table is in the filtered result iff its year,
month, procedure and client each belong to the corresponding selected list
(AND across the four dimensions, OR — membership — inside each); and when
any one selection is empty the filtered result has no rows. -/
theorem df_filtrado_pertinencia (df : List Registro) (anos meses : List Int)
    (procs clientes : List String) :
    (∀ r ∈ df, (r ∈ df_filtrado df anos meses procs clientes ↔
      r.ano ∈ anos ∧ r.mes ∈ meses ∧ r.procedimento ∈ procs ∧ r.cliente ∈ clientes))
    ∧ (anos = [] ∨ meses = [] ∨ procs = [] ∨ clientes = [] →
      df_filtrado df anos meses procs clientes = []) := by
  constructor
  · intro r hr
    simp [df_filtrado, List.mem_filter, hr, and_assoc]
  · rintro (rfl | rfl | rfl | rfl) <;> simp [df_filtrado]

/-- Witness for C1 at a concrete table and concrete selections. -/
theorem df_filtrado_pertinencia_witness :
    ((⟨20240105, 2024, 1, "CONSULTA", "CONVENIO A", 3⟩ : Registro) ∈
      df_filtrado [⟨20240105, 2024, 1, "CONSULTA", "CONVENIO A", 3⟩]
        [2024] [1] ["CONSULTA"] ["CONVENIO A"])
    ∧ df_filtrado [⟨20240105, 2024, 1, "CONSULTA", "CONVENIO A", 3⟩]
        [] [1] ["CONSULTA"] ["CONVENIO A"] = [] := by
  refine ⟨?_, ?_⟩
  · exact ((df_filtrado_pertinencia
      [⟨20240105, 2024, 1, "CONSULTA", "CONVENIO A", 3⟩]
      [2024] [1] ["CONSULTA"] ["CONVENIO A"]).1 _ (by decide)).mpr (by decide)
  · exact (df_filtrado_pertinencia
      [⟨20240105, 2024, 1, "CONSULTA", "CONVENIO A", 3⟩]
      [] [1] ["CONSULTA"] ["CONVENIO A"]).2 (Or.inl rfl)

/-- Counterexample to C2 as stated: filtering the one-row table to the year
9999 (not present) yields an empty view, and the page then reports **no**
summary (the empty branch shows a warning) — not a summary of
`total_quantity=0, record_count=0`. -/
theorem resumo_counterexample :
    resumo (df_filtrado [⟨20240105, 2024, 1, "CONSULTA", "CONVENIO A", 3⟩]
        [9999] [1] ["CONSULTA"] ["CONVENIO A"]) ≠ some (0, 0)
    ∧ resumo (df_filtrado [⟨20240105, 2024, 1, "CONSULTA", "CONVENIO A", 3⟩]
        [9999] [1] ["CONSULTA"] ["CONVENIO A"]) = none
    ∧ df_filtrado [⟨20240105, 2024, 1, "CONSULTA", "CONVENIO A", 3⟩]
        [9999] [1] ["CONSULTA"] ["CONVENIO A"] = [] := by decide

/-- C2 (amended): whenever the filtered view is non-empty the summary reports
exactly the sum of `Quantidade` over the view and the view's row count; when
the filtered view is empty (for instance after filtering to a year not in
the data) no summary is reported. -/
theorem resumo_soma_contagem (df : List Registro) (anos meses : List Int)
    (procs clientes : List String) :
    (df_filtrado df anos meses procs clientes ≠ [] →
      resumo (df_filtrado df anos meses procs clientes) =
        some (((df_filtrado df anos meses procs clientes).map Registro.quantidade).sum,
          (df_filtrado df anos meses procs clientes).length))
    ∧ (df_filtrado df anos meses procs clientes = [] →
      resumo (df_filtrado df anos meses procs clientes) = none) := by
  constructor
  · intro h
    simp [resumo, h, total_quantidade, num_registros]
  · intro h
    simp [resumo, h]

/-- Witness for C2's amended theorem at a concrete table and selections. -/
theorem resumo_soma_contagem_witness :
    resumo (df_filtrado [⟨20240105, 2024, 1, "CONSULTA", "CONVENIO A", 3⟩]
        [2024] [1] ["CONSULTA"] ["CONVENIO A"]) =
      some (((df_filtrado [⟨20240105, 2024, 1, "CONSULTA", "CONVENIO A", 3⟩]
        [2024] [1] ["CONSULTA"] ["CONVENIO A"]).map Registro.quantidade).sum,
        (df_filtrado [⟨20240105, 2024, 1, "CONSULTA", "CONVENIO A", 3⟩]
        [2024] [1] ["CONSULTA"] ["CONVENIO A"]).length) :=
  (resumo_soma_contagem [⟨20240105, 2024, 1, "CONSULTA", "CONVENIO A", 3⟩]
    [2024] [1] ["CONSULTA"] ["CONVENIO A"]).1 (by decide)

/-- Counterexample to C3 as stated: on a CSV whose `Cliente` column is
numeric (client codes), line 22 applies the pandas `.str` accessor without
`astype(str)`, which raises and sends the loader into the generic `except`:
the load fails with an error instead of converting the value to the string
"123" — while the loader the spec describes (`astype(str)` on both columns,
`carregar_conforme_spec`) loads the row with cliente "123". -/
theorem carregar_cliente_numerico_counterexample :
    carregar_dados_consolidados
      (.csv [{ data := "2024-01-05", ano := 2024, mes := 1,
               cliente := .int 123, procedimento := .str "X", quantidade := 3 }])
      = .error "Erro ao carregar o arquivo CSV: acesso .str em coluna nao textual"
    ∧ carregar_conforme_spec
      (.csv [{ data := "2024-01-05", ano := 2024, mes := 1,
               cliente := .int 123, procedimento := .str "X", quantidade := 3 }])
      = .ok [⟨20240105, 2024, 1, "X", "123", 3⟩] :=
  ⟨rfl, rfl⟩

/-- C3 (amended): on every successful load the input was a well-shaped CSV
whose `Cliente` cells were all textual already (a numeric client column makes
the load fail instead of being converted to string); the loaded `Procedimento`
column is the raw column converted to string, stripped and uppercased, the
loaded `Cliente` column is the raw text stripped and uppercased, and every
loaded value is a normalization fixed point — so no two loaded rows carry
`procedimento` or `cliente` values that differ only in case or surrounding
whitespace. -/
theorem carregar_normalizacao (entrada : LoadInput) (df : List Registro)
    (h : carregar_dados_consolidados entrada = .ok df) :
    ∃ linhas, entrada = LoadInput.csv linhas
      ∧ (∀ r ∈ linhas, r.cliente.ehStr = true)
      ∧ df.map Registro.procedimento
          = linhas.map (fun r => normalizar r.procedimento.paraStr)
      ∧ df.map Registro.cliente = linhas.map (fun r => normalizar r.cliente.texto)
      ∧ ∀ x ∈ df, normalizar x.procedimento = x.procedimento
          ∧ normalizar x.cliente = x.cliente := by
  cases entrada with
  | arquivoInexistente => simp [carregar_dados_consolidados] at h
  | malformado => simp [carregar_dados_consolidados] at h
  | csv linhas =>
    refine ⟨linhas, rfl, ?_⟩
    simp only [carregar_dados_consolidados] at h
    cases hp : parseTodas linhas with
    | none => rw [hp] at h; simp at h
    | some datas =>
      rw [hp] at h
      simp only [] at h
      by_cases hstr : linhas.all (fun r => r.cliente.ehStr)
      · rw [if_pos hstr] at h
        have hdf : df = List.zipWith
            (fun r d =>
              ({ data := d, ano := r.ano, mes := r.mes,
                 procedimento := normalizar r.procedimento.paraStr,
                 cliente := normalizar r.cliente.texto,
                 quantidade := r.quantidade } : Registro)) linhas datas := by
          cases h; rfl
        have hlen : linhas.length = datas.length :=
          (parseTodas_comprimento linhas datas hp).symm
        refine ⟨fun r hr => List.all_eq_true.mp hstr r hr, ?_, ?_, ?_⟩
        · rw [hdf]
          refine zipWith_map_esquerda _ _ _ ?_ linhas datas hlen
          intro a b; rfl
        · rw [hdf]
          refine zipWith_map_esquerda _ _ _ ?_ linhas datas hlen
          intro a b; rfl
        · intro x hx
          rw [hdf] at hx
          obtain ⟨r, _, d, _, rfl⟩ := mem_zipWith_existe _ linhas datas x hx
          exact ⟨normalizar_idem _, normalizar_idem _⟩
      · rw [if_neg hstr] at h
        simp at h

/-- Witness for C3's amended theorem: a concrete successful load with
whitespace and lower case in the raw values. -/
theorem carregar_normalizacao_witness :
    ∃ linhas, (LoadInput.csv
        [{ data := "2024-01-05", ano := 2024, mes := 1,
           cliente := .str " convenio a ", procedimento := .str " Consulta ",
           quantidade := 3 }]) = LoadInput.csv linhas
      ∧ (∀ r ∈ linhas, r.cliente.ehStr = true)
      ∧ ([⟨20240105, 2024, 1, "CONSULTA", "CONVENIO A", 3⟩] : List Registro).map
          Registro.procedimento
          = linhas.map (fun r => normalizar r.procedimento.paraStr)
      ∧ ([⟨20240105, 2024, 1, "CONSULTA", "CONVENIO A", 3⟩] : List Registro).map
          Registro.cliente = linhas.map (fun r => normalizar r.cliente.texto)
      ∧ ∀ x ∈ ([⟨20240105, 2024, 1, "CONSULTA", "CONVENIO A", 3⟩] : List Registro),
          normalizar x.procedimento = x.procedimento
          ∧ normalizar x.cliente = x.cliente :=
  carregar_normalizacao
    (.csv [{ data := "2024-01-05", ano := 2024, mes := 1,
             cliente := .str " convenio a ", procedimento := .str " Consulta ",
             quantidade := 3 }])
    [⟨20240105, 2024, 1, "CONSULTA", "CONVENIO A", 3⟩] (by rfl)

/-- C4: the Top-10 procedure aggregation keeps at most 10 groups, every kept
group's quantity sum is at least every dropped group's quantity sum, and the
groups are handed to the chart sorted ascending by quantity sum. -/
theorem df_top_proc_top10 (dfF : List Registro) :
    (df_top_proc dfF).length ≤ 10
    ∧ (∀ g ∈ groupbySomaQuantidade strLe Registro.procedimento dfF,
        g ∉ df_top_proc dfF → ∀ g' ∈ df_top_proc dfF, g.2 ≤ g'.2)
    ∧ (df_top_proc_plotado dfF).Pairwise (fun g g' => g.2 ≤ g'.2) := by
  refine ⟨?_, ?_, ?_⟩
  · exact List.length_take_le _ _
  · intro g hg hgout g' hg'
    set S := (groupbySomaQuantidade strLe Registro.procedimento dfF).insertionSort
        (fun a b => b.2 ≤ a.2) with hSdef
    have hS : g ∈ S := (List.mem_insertionSort _).mpr hg
    have hsorted : S.Sorted (fun a b => b.2 ≤ a.2) :=
      List.sorted_insertionSort _ _
    have hsplit : g ∈ (S.take 10 ++ S.drop 10) := by
      rw [List.take_append_drop]; exact hS
    have hdrop : g ∈ S.drop 10 := by
      rcases List.mem_append.mp hsplit with h | h
      · exact absurd h hgout
      · exact h
    exact hsorted.rel_of_mem_take_of_mem_drop hg' hdrop
  · exact List.sorted_insertionSort _ _

/-- Witness for C4 at a concrete filtered view. -/
theorem df_top_proc_top10_witness :
    (df_top_proc [⟨1, 2024, 1, "B", "X", 5⟩, ⟨1, 2024, 1, "A", "X", 5⟩,
      ⟨1, 2024, 1, "C", "X", 7⟩]).length ≤ 10 :=
  (df_top_proc_top10 [⟨1, 2024, 1, "B", "X", 5⟩, ⟨1, 2024, 1, "A", "X", 5⟩,
    ⟨1, 2024, 1, "C", "X", 7⟩]).1

/-- C5: filtering with every dimension's available list (the distinct values
present in the table) is the identity on the table. -/
theorem df_filtrado_identidade (df : List Registro) :
    df_filtrado df (anos_disponiveis df) (meses_disponiveis df)
      (procedimentos_disponiveis df) (clientes_disponiveis df) = df := by
  apply List.filter_eq_self.mpr
  intro r hr
  simp [anos_disponiveis, meses_disponiveis, procedimentos_disponiveis,
    clientes_disponiveis, List.mem_insertionSort, List.mem_dedup]
  and_intros <;> exact ⟨r, hr, rfl⟩

/-- C6: the filtered result is a sublist of the source table (same rows, same
relative order, source untouched), and filtering is idempotent: filtering the
filtered result again with the same selections changes nothing. -/
theorem df_filtrado_sublist_idempotente (df : List Registro) (anos meses : List Int)
    (procs clientes : List String) :
    List.Sublist (df_filtrado df anos meses procs clientes) df
    ∧ df_filtrado (df_filtrado df anos meses procs clientes) anos meses procs clientes
      = df_filtrado df anos meses procs clientes := by
  refine ⟨List.filter_sublist _, ?_⟩
  simp only [df_filtrado, List.filter_filter]
  simp [Bool.and_self]

/-- C7: the client distribution's per-client quantity sums add up exactly to
the total quantity of the same filtered view. -/
theorem df_cliente_soma (dfF : List Registro) :
    ((df_cliente dfF).map Prod.snd).sum = total_quantidade dfF := by
  unfold df_cliente groupbySomaQuantidade
  rw [List.map_map]
  have hnd : (((dfF.map Registro.cliente).dedup).insertionSort strLe).Nodup :=
    (List.perm_insertionSort strLe _).symm.nodup (List.nodup_dedup _)
  have hall : ∀ r ∈ dfF,
      Registro.cliente r ∈ ((dfF.map Registro.cliente).dedup).insertionSort strLe := by
    intro r hr
    rw [List.mem_insertionSort, List.mem_dedup]
    exact List.mem_map.mpr ⟨r, hr, rfl⟩
  exact groupby_soma_total Registro.cliente _ dfF hnd hall

/-- C8: the time series has one group per distinct date of the filtered view
— a pair `(d, q)` occurs iff `d` occurs as a date in the view and `q` is the
sum of `Quantidade` over the view's rows dated `d` — and its groups are
strictly ascending by date. -/
theorem df_evolucao_caracterizacao (dfF : List Registro) :
    (∀ d q, ((d, q) ∈ df_evolucao dfF ↔
      (∃ r ∈ dfF, r.data = d)
        ∧ q = somaQuantidade (dfF.filter fun r => r.data = d)))
    ∧ (df_evolucao dfF).Pairwise (fun g g' => g.1 < g'.1) := by
  constructor
  · intro d q
    simp only [df_evolucao, groupbySomaQuantidade, List.mem_map,
      List.mem_insertionSort, List.mem_dedup, Prod.mk.injEq]
    constructor
    · rintro ⟨k, hk, rfl, rfl⟩
      exact ⟨hk, rfl⟩
    · rintro ⟨⟨r, hr, rfl⟩, rfl⟩
      exact ⟨r.data, ⟨r, hr, rfl⟩, rfl, rfl⟩
  · have hs : ((((dfF.map Registro.data).dedup).insertionSort (· ≤ ·))).Sorted (· ≤ ·) :=
      List.sorted_insertionSort (· ≤ ·) _
    have hn : ((((dfF.map Registro.data).dedup).insertionSort (· ≤ ·))).Nodup :=
      (List.perm_insertionSort (· ≤ ·) _).symm.nodup (List.nodup_dedup _)
    have hlt : ((((dfF.map Registro.data).dedup).insertionSort (· ≤ ·))).Pairwise (· < ·) :=
      (hs.and hn).imp fun h => lt_of_le_of_ne h.1 h.2
    exact List.pairwise_map.mpr (hlt.imp fun h => h)

/-- C9: whenever the load fails — missing file, malformed content, or an
unparseable date — the loader returns no table but an error message; the
script then surfaces exactly that message and stops (`st.stop`), so no
filtering, aggregation or display is computed; and the two named failure
modes (missing file, malformed CSV) plus a row with an unparseable date do
make the load fail. -/
theorem dashboard_para_em_erro :
    (∀ (entrada : LoadInput) (anos meses : List Int) (procs clientes : List String),
      (∀ df, carregar_dados_consolidados entrada ≠ .ok df) →
      ∃ msg, carregar_dados_consolidados entrada = .error msg
        ∧ dashboard entrada anos meses procs clientes = .error msg)
    ∧ (∃ msg, carregar_dados_consolidados .arquivoInexistente = .error msg)
    ∧ (∃ msg, carregar_dados_consolidados .malformado = .error msg)
    ∧ (∀ linhas, (∃ r ∈ linhas, parseData r.data = none) →
        ∃ msg, carregar_dados_consolidados (.csv linhas) = .error msg) := by
  refine ⟨?_, ⟨_, rfl⟩, ⟨_, rfl⟩, ?_⟩
  · intro entrada anos meses procs clientes hnotok
    cases hc : carregar_dados_consolidados entrada with
    | error msg =>
      refine ⟨msg, rfl, ?_⟩
      unfold dashboard
      rw [hc]
    | ok df => exact absurd hc (hnotok df)
  · intro linhas hbad
    have hnone : parseTodas linhas = none := by
      obtain ⟨r, hr, hnoner⟩ := hbad
      induction linhas with
      | nil => simp at hr
      | cons a t ih =>
        unfold parseTodas
        rcases List.mem_cons.mp hr with rfl | hr'
        · rw [hnoner]
        · cases hpa : parseData a.data with
          | none => rfl
          | some d => rw [ih hr']
    refine ⟨"Erro ao carregar o arquivo CSV: data invalida", ?_⟩
    simp only [carregar_dados_consolidados]
    rw [hnone]

/-- Witness for C9 at the missing-file input. -/
theorem dashboard_para_em_erro_witness :
    ∃ msg, carregar_dados_consolidados .arquivoInexistente = .error msg
      ∧ dashboard .arquivoInexistente [] [] [] [] = .error msg :=
  dashboard_para_em_erro.1 .arquivoInexistente [] [] [] []
    (fun df h => by simp [carregar_dados_consolidados] at h)

/-- C10: ties at the Top-10 cutoff are broken lexicographically: a kept group
with the same quantity sum as a dropped group has the lexicographically
(strictly) smaller procedure name — `nlargest(10)` keeps first occurrences
among equals, and the groupby series lists procedures in ascending name
order. -/
theorem df_top_proc_desempate (dfF : List Registro) :
    ∀ g ∈ df_top_proc dfF,
      ∀ h ∈ groupbySomaQuantidade strLe Registro.procedimento dfF,
        h ∉ df_top_proc dfF → g.2 = h.2 → strLe g.1 h.1 ∧ g.1 ≠ h.1 := by
  intro g hg h hmem hout heq
  set G := groupbySomaQuantidade strLe Registro.procedimento dfF with hGdef
  set S := G.insertionSort (fun a b => b.2 ≤ a.2) with hSdef
  have hkeys_nodup : (((dfF.map Registro.procedimento).dedup).insertionSort strLe).Nodup :=
    (List.perm_insertionSort strLe _).symm.nodup (List.nodup_dedup _)
  have hkeys_sorted : (((dfF.map Registro.procedimento).dedup).insertionSort strLe).Sorted strLe :=
    List.sorted_insertionSort _ _
  have hkeys_pair : (((dfF.map Registro.procedimento).dedup).insertionSort strLe).Pairwise
      (fun k k' => strLe k k' ∧ k ≠ k') :=
    hkeys_sorted.and hkeys_nodup
  have hG_pair : G.Pairwise (fun p q => strLe p.1 q.1 ∧ p.1 ≠ q.1) := by
    rw [hGdef]
    unfold groupbySomaQuantidade
    exact List.pairwise_map.mpr (hkeys_pair.imp fun hk => hk)
  have hG_nodup : G.Nodup := by
    rw [hGdef]
    unfold groupbySomaQuantidade
    exact hkeys_nodup.map fun k k' hkk => congrArg Prod.fst hkk
  have hgS : g ∈ S := List.mem_of_mem_take hg
  have hgG : g ∈ G := (List.mem_insertionSort _).mp hgS
  have hgh : g ≠ h := fun hc => hout (hc ▸ hg)
  rcases par_sublist_de_pairwise hG_pair hgG hmem hgh with ⟨h1, _⟩ | ⟨_, h2⟩
  · exact h1
  · exfalso
    have hSsub : List.Sublist [h, g] S :=
      List.pair_sublist_insertionSort heq.le h2
    have hSnodup : S.Nodup := (List.perm_insertionSort _ _).symm.nodup hG_nodup
    have hhS : h ∈ S := (List.mem_insertionSort _).mpr hmem
    have hhdrop : h ∈ S.drop 10 := by
      have hsplit : h ∈ (S.take 10 ++ S.drop 10) := by
        rw [List.take_append_drop]; exact hhS
      rcases List.mem_append.mp hsplit with hx | hx
      · exact absurd hx hout
      · exact hx
    have hnd2 : (S.take 10 ++ S.drop 10).Nodup := by
      rw [List.take_append_drop]; exact hSnodup
    have hdisj := (List.nodup_append.mp hnd2).2.2
    have hsubsplit : List.Sublist [h, g] (S.take 10 ++ S.drop 10) := by
      rw [List.take_append_drop]; exact hSsub
    rcases List.sublist_append_iff.mp hsubsplit with ⟨xs, ys, hxy, hxs, hys⟩
    rcases xs with _ | ⟨x1, _ | ⟨x2, _ | ⟨x3, xr⟩⟩⟩
    · simp only [List.nil_append] at hxy
      subst hxy
      exact hdisj hg (hys.subset (by simp))
    · simp only [List.cons_append, List.cons.injEq] at hxy
      obtain ⟨rfl, hxy2⟩ := hxy
      exact hdisj (hxs.subset (by simp)) hhdrop
    · simp only [List.cons_append, List.cons.injEq] at hxy
      obtain ⟨rfl, rfl, _⟩ := hxy
      exact hdisj (hxs.subset (by simp)) hhdrop
    · simp at hxy

/-- Witness for C10: eleven procedures all summing to 1 — the ten
lexicographically smallest are kept, "K" is dropped. -/
theorem df_top_proc_desempate_witness :
    (("A", (1 : Int)) ∈ df_top_proc
      [⟨1, 2024, 1, "A", "X", 1⟩, ⟨1, 2024, 1, "B", "X", 1⟩,
       ⟨1, 2024, 1, "C", "X", 1⟩, ⟨1, 2024, 1, "D", "X", 1⟩,
       ⟨1, 2024, 1, "E", "X", 1⟩, ⟨1, 2024, 1, "F", "X", 1⟩,
       ⟨1, 2024, 1, "G", "X", 1⟩, ⟨1, 2024, 1, "H", "X", 1⟩,
       ⟨1, 2024, 1, "I", "X", 1⟩, ⟨1, 2024, 1, "J", "X", 1⟩,
       ⟨1, 2024, 1, "K", "X", 1⟩])
    ∧ (("K", (1 : Int)) ∉ df_top_proc
      [⟨1, 2024, 1, "A", "X", 1⟩, ⟨1, 2024, 1, "B", "X", 1⟩,
       ⟨1, 2024, 1, "C", "X", 1⟩, ⟨1, 2024, 1, "D", "X", 1⟩,
       ⟨1, 2024, 1, "E", "X", 1⟩, ⟨1, 2024, 1, "F", "X", 1⟩,
       ⟨1, 2024, 1, "G", "X", 1⟩, ⟨1, 2024, 1, "H", "X", 1⟩,
       ⟨1, 2024, 1, "I", "X", 1⟩, ⟨1, 2024, 1, "J", "X", 1⟩,
       ⟨1, 2024, 1, "K", "X", 1⟩])
    ∧ strLe "A" "K" ∧ "A" ≠ "K" := by
  refine ⟨by decide, by decide, ?_⟩
  exact df_top_proc_desempate
    [⟨1, 2024, 1, "A", "X", 1⟩, ⟨1, 2024, 1, "B", "X", 1⟩,
     ⟨1, 2024, 1, "C", "X", 1⟩, ⟨1, 2024, 1, "D", "X", 1⟩,
     ⟨1, 2024, 1, "E", "X", 1⟩, ⟨1, 2024, 1, "F", "X", 1⟩,
     ⟨1, 2024, 1, "G", "X", 1⟩, ⟨1, 2024, 1, "H", "X", 1⟩,
     ⟨1, 2024, 1, "I", "X", 1⟩, ⟨1, 2024, 1, "J", "X", 1⟩,
     ⟨1, 2024, 1, "K", "X", 1⟩]
    ("A", 1) (by decide) ("K", 1) (by decide) (by decide) rfl
